import Mathlib

/-!
Shallow embedding of the offline form-queue / sync subsystem of the
Rock Living Water PWA (src/scripts.js and src/service-worker.js),
together with theorems settling the specification's claims about it.

The embedding models:
* JSON values and `JSON.stringify` (as used for request bodies);
* JavaScript object spread for header maps (later keys override earlier);
* the service-worker side: `IndexedDBHelper` (`addToQueue`, `getQueue`,
  `removeFromQueue`, `updateQueue`), the `queue-form` message handler,
  the `sync` event handler and `syncForms`;
* the page side: `OfflineManager.queueForm`, `OfflineManager.syncPendingForms`,
  `DataManager.fetchData` / `handleOfflineData` / `submitForm`, and the
  `online` / `offline` window event listeners.

Logging and toast side effects are modelled only where a claim mentions
them; network I/O is modelled by an oracle parameter.
-/

/-- JavaScript `||` on strings: the empty string is falsy. -/
def jsOrString (v d : String) : String :=
  if v = "" then d else v

/-- JavaScript `String.prototype.includes`. -/
def jsIncludes (s sub : String) : Bool :=
  decide (sub.toList <:+: s.toList)

/-- JSON values (the payload shapes the app passes around). -/
inductive Json where
  | null : Json
  | bool (b : Bool) : Json
  | num (n : Int) : Json
  | str (s : String) : Json
  | arr (xs : List Json) : Json
  | obj (fields : List (String × Json)) : Json
deriving Repr

mutual

/-- Model of `JSON.stringify` (string escaping elided; the app's keys and claim
inputs contain no characters needing escapes). -/
def Json.stringify : Json → String
  | .null => "null"
  | .bool b => if b then "true" else "false"
  | .num n => toString n
  | .str s => "\"" ++ s ++ "\""
  | .arr xs => "[" ++ String.intercalate "," (Json.stringifyList xs) ++ "]"
  | .obj fs => "\x7b" ++ String.intercalate "," (Json.stringifyFields fs) ++ "\x7d"

def Json.stringifyList : List Json → List String
  | [] => []
  | x :: xs => Json.stringify x :: Json.stringifyList xs

def Json.stringifyFields : List (String × Json) → List String
  | [] => []
  | (k, v) :: fs => ("\"" ++ k ++ "\":" ++ Json.stringify v) :: Json.stringifyFields fs

end

/-- Header maps: JavaScript objects keyed by header name.  `setHeader`
is assignment of one key in an object literal built left to right, so a
later key overrides an earlier one in place. -/
def setHeader (hs : List (String × String)) (k v : String) : List (String × String) :=
  if hs.any (fun p => p.1 == k) then
    hs.map (fun p => if p.1 == k then (k, v) else p)
  else
    hs ++ [(k, v)]

/-- Property lookup on a header object (first binding of the key). -/
def getHeader : List (String × String) → String → Option String
  | [], _ => none
  | p :: rest, key => if p.1 == key then some p.2 else getHeader rest key

/-- The header object built by `syncForms` (service-worker.js lines
265-269): `\x7b'Content-Type': 'application/json', 'X-CSRF-Token':
formData.csrfToken || '', ...formData.headers\x7d`.  The stored headers are
spread last, so they override the two fixed entries. -/
def mergeHeaders (stored : List (String × String)) (csrf : String) : List (String × String) :=
  stored.foldl (fun acc p => setHeader acc p.1 p.2)
    [("Content-Type", "application/json"), ("X-CSRF-Token", jsOrString csrf "")]

/-- A record of the IndexedDB `formQueue` object store (keyPath `id`,
autoIncrement), shaped by `IndexedDBHelper.addToQueue`. -/
structure Submission where
  id : Nat
  url : String
  method : String
  headers : List (String × String)
  body : Json
  formId : String
  timestamp : String
  attempts : Nat
  csrfToken : String
deriving Repr

/-- The `formData` payload of a `queue-form` message as the service
worker reads it: every field other than `url` and `formId` may be
absent (`Option.none` models JavaScript `undefined`).  The page sends
the original form payload under the key `data`; `addToQueue` never
reads that key. -/
structure QueueMsgData where
  url : String
  method : Option String
  headers : Option (List (String × String))
  body : Option Json
  data : Option Json
  formId : String
  timestamp : Option String
  attempts : Option Nat
  csrfToken : Option String
deriving Repr

/-- The IndexedDB `formQueue` store: its records in key order plus the
auto-increment counter. -/
structure SWStore where
  records : List Submission
  nextId : Nat
deriving Repr

/-- Model of `IndexedDBHelper.addToQueue`: builds the submission record with the
source's defaults (`method || 'POST'`, `headers ||` a JSON content type,
`body || \x7b\x7d`, `timestamp ||` now, `attempts || 0`, `csrfToken || ''`)
and `store.add`s it, the store assigning the next auto-increment id. -/
def addToQueue (now : String) (st : SWStore) (formData : QueueMsgData) : SWStore :=
  let submission : Submission :=
    { id := st.nextId
      url := formData.url
      method := (formData.method.map (fun m => jsOrString m "POST")).getD "POST"
      headers := formData.headers.getD [("Content-Type", "application/json")]
      body := formData.body.getD (Json.obj [])
      formId := formData.formId
      timestamp := (formData.timestamp.map (fun t => jsOrString t now)).getD now
      attempts := formData.attempts.getD 0
      csrfToken := (formData.csrfToken.map (fun c => jsOrString c "")).getD "" }
  { records := st.records ++ [submission], nextId := st.nextId + 1 }

/-- Model of `IndexedDBHelper.getQueue`: `getAll` over the store. -/
def getQueue (st : SWStore) : List Submission :=
  st.records

/-- Model of `IndexedDBHelper.removeFromQueue`: deletes each listed submission
by its `id`. -/
def removeFromQueue (records : List Submission) (subs : List Submission) : List Submission :=
  records.filter (fun r => !(subs.any (fun s => s.id == r.id)))

/-- One IndexedDB `put`: overwrites the record with the same key, or
inserts when the key is absent (all `updateQueue` puts in this program
use keys already present in the store). -/
def putRecord (records : List Submission) (s : Submission) : List Submission :=
  if records.any (fun r => r.id == s.id) then
    records.map (fun r => if r.id == s.id then s else r)
  else
    records ++ [s]

/-- Model of `IndexedDBHelper.updateQueue`: `put`s each listed submission. -/
def updateQueue (records : List Submission) (subs : List Submission) : List Submission :=
  subs.foldl putRecord records

/-- The HTTP request `syncForms` issues for one submission. -/
structure Request where
  url : String
  method : String
  headers : List (String × String)
  body : String
deriving Repr, DecidableEq

/-- The `fetch` call of service-worker.js lines 263-271. -/
def mkRequest (s : Submission) : Request :=
  { url := s.url
    method := s.method
    headers := mergeHeaders s.headers s.csrfToken
    body := Json.stringify s.body }

/-- The `for (const formData of queue)` loop of `syncForms`
(service-worker.js lines 257-284).  `net` is the network oracle:
`net req = true` models a response with `response.ok`, `false` models a
non-2xx response or a thrown network error (both take the same branch).
Returns the successful set, the failed set (with `attempts` incremented
in memory for non-terminal failures), and the requests issued, each in
queue order. -/
def syncFormsLoop (net : Request → Bool) :
    List Submission → List Submission × List Submission × List Request
  | [] => ([], [], [])
  | formData :: rest =>
    if 3 ≤ formData.attempts then
      let (succ, failed, reqs) := syncFormsLoop net rest
      (succ, formData :: failed, reqs)
    else
      let req := mkRequest formData
      if net req then
        let (succ, failed, reqs) := syncFormsLoop net rest
        (formData :: succ, failed, req :: reqs)
      else
        let (succ, failed, reqs) := syncFormsLoop net rest
        (succ, { formData with attempts := formData.attempts + 1 } :: failed, req :: reqs)

/-- The outcome of one `syncForms` pass: the queue contents afterwards,
the network requests issued, and the `forms-synced` broadcast (count of
successes, count of failures) posted to the clients, when any. -/
structure SyncResult where
  store : List Submission
  requests : List Request
  broadcast : Option (Nat × Nat)
deriving Repr

/-- Model of `syncForms` (service-worker.js lines 250-297): read the queue;
return at once when it is empty; otherwise run the loop, remove the
successful submissions, `put` back the failed set (terminal submissions
included, unchanged), and broadcast the summary counts. -/
def syncForms (net : Request → Bool) (queue : List Submission) : SyncResult :=
  if queue.isEmpty then
    { store := queue, requests := [], broadcast := none }
  else
    let (succ, failed, reqs) := syncFormsLoop net queue
    { store := updateQueue (removeFromQueue queue succ) failed
      requests := reqs
      broadcast := some (succ.length, failed.length) }

/-- The `sync` event listener (service-worker.js lines 226-230): runs
`syncForms` only for the tag `sync-form-submissions`. -/
def handleSyncEvent (net : Request → Bool) (tag : String) (queue : List Submission) : SyncResult :=
  if tag == "sync-form-submissions" then
    syncForms net queue
  else
    { store := queue, requests := [], broadcast := none }

/-- The background sync tags the page ever registers: scripts.js
contains no `sync.register` call, so the list is empty and the
`sync-form-submissions` listener can only be reached by a sync event
raised outside this code. -/
def backgroundSyncRegistrations : List String := []

/-- Outcome of the service worker's `message` listener on a
`queue-form` message. -/
structure MessageHandlerResult where
  store : SWStore
  reply : Bool
  syncTriggered : Bool
deriving Repr

/-- The `message` event listener (service-worker.js lines 232-248) on a
`queue-form` message: re-defaults `csrfToken` with `|| ''`, stores the
submission via `addToQueue`, replies `\x7bsuccess: true\x7d` on the message
port.  Its body contains no sync registration and no `syncForms` call,
so `syncTriggered` is `false`. -/
def handleQueueFormMessage (now : String) (st : SWStore) (msg : QueueMsgData) :
    MessageHandlerResult :=
  { store := addToQueue now st { msg with csrfToken := some (msg.csrfToken.getD "") }
    reply := true
    syncTriggered := false }

/-- The object `DataManager.submitForm` hands to `OfflineManager.queueForm`
while offline (scripts.js lines 462-466): the payload travels under the
key `data`; there is no `body` key. -/
structure FormData where
  url : String
  method : String
  data : Json
  formId : String
deriving Repr

/-- A record of the localforage `formQueue` list, as pushed by
`OfflineManager.queueForm`: the form data spread together with the
stamps `timestamp`, `attempts` and `csrfToken`. -/
structure FgRecord where
  url : String
  method : String
  data : Json
  formId : String
  timestamp : String
  attempts : Nat
  csrfToken : String
deriving Repr

/-- The page's service-worker environment, as tested by
`'serviceWorker' in navigator && navigator.serviceWorker.controller`. -/
structure ClientEnv where
  hasServiceWorker : Bool
  hasController : Bool
deriving Repr

/-- The record `queueForm` pushes onto the localforage `formQueue`
(scripts.js lines 315-321). -/
def queueFormRecord (now csrf : String) (fd : FormData) : FgRecord :=
  { url := fd.url
    method := fd.method
    data := fd.data
    formId := fd.formId
    timestamp := now
    attempts := 0
    csrfToken := csrf }

/-- The `queue-form` message payload `queueForm` posts (scripts.js lines
327-330): the original form data spread with the CSRF token.  The spread
carries `data` but no `body`, `headers`, `timestamp` or `attempts`. -/
def queueFormMessage (csrf : String) (fd : FormData) : QueueMsgData :=
  { url := fd.url
    method := some fd.method
    headers := none
    body := none
    data := some fd.data
    formId := fd.formId
    timestamp := none
    attempts := none
    csrfToken := some csrf }

/-- Model of `OfflineManager.queueForm` (scripts.js lines 313-336): appends the
stamped record to the localforage `formQueue` and, only when a service
worker controller is active, posts the `queue-form` message. -/
def queueForm (now csrf : String) (env : ClientEnv) (queue : List FgRecord) (fd : FormData) :
    List FgRecord × Option QueueMsgData :=
  (queue ++ [queueFormRecord now csrf fd],
   if env.hasServiceWorker && env.hasController then some (queueFormMessage csrf fd) else none)

/-- The value `DataManager.fetchData` resolves with: the parsed JSON
response body (`success` flag, optional `data`, optional `message`). -/
structure FetchRes where
  success : Bool
  data : Option Json
  message : Option String
deriving Repr

/-- The in-memory `Store.state.cachedData` slots `handleOfflineData`
reads. -/
structure CacheState where
  metrics : Option Json
  sales : Option Json
  customers : Option Json
  vendors : Option Json
  expenses : Option Json
deriving Repr

/-- Model of `DataManager.handleOfflineData` (scripts.js lines 428-459): serve
the matching cached slot; the `generateReports` branch returns in both
cases, every other branch falls through to the final offline message
when its cache slot is empty.  Always returns a value, never throws. -/
def handleOfflineData (cache : CacheState) (url : String) : FetchRes :=
  if jsIncludes url "/api/generateReports" then
    match cache.metrics with
    | some m => { success := true, data := some m, message := none }
    | none => { success := false, data := none, message := some "No cached metrics available offline" }
  else
    let hit : Option Json :=
      if jsIncludes url "/api/getSalesRecords" then cache.sales
      else if jsIncludes url "/api/getCustomers" then cache.customers
      else if jsIncludes url "/api/getVendors" then cache.vendors
      else if jsIncludes url "/api/getExpensesRecords" then cache.expenses
      else none
    match hit with
    | some d => { success := true, data := some d, message := none }
    | none => { success := false, data := none, message := some "Cannot fetch this data while offline" }

/-- The options object passed to `DataManager.fetchData`. -/
structure FetchOptions where
  method : Option String
  body : Option Json
deriving Repr

/-- A network call issued by the page's `fetch` (url, effective method,
serialized body; the request headers play no role in any property of
the page-side pass and are elided). -/
structure NetCall where
  url : String
  method : String
  body : Option String
deriving Repr, DecidableEq

/-- Model of `DataManager.fetchData` (scripts.js lines 379-420): while the
offline flag is set, delegate to `handleOfflineData` with no network
call (and no possibility of throwing); otherwise issue one `fetch`.
The oracle returns `some res` for an ok response with parsed body `res`
and `none` for a non-2xx response or thrown network error, both of
which `fetchData` turns into a thrown error (`Except.error`).  The
write-back of successful responses into the cache is a side effect no
claim concerns and is elided. -/
def fetchData (offline : Bool) (cache : CacheState) (net : NetCall → Option FetchRes)
    (url : String) (options : FetchOptions) : Except Unit FetchRes × List NetCall :=
  if offline then
    (.ok (handleOfflineData cache url), [])
  else
    let call : NetCall :=
      { url := url
        method := jsOrString (options.method.getD "") "GET"
        body := options.body.map Json.stringify }
    match net call with
    | some res => (.ok res, [call])
    | none => (.error (), [call])

/-- The call `syncPendingForms` makes for one queued form (scripts.js
lines 349-352): `fetchData(form.url, \x7bmethod: form.method, body:
form.data\x7d)`. -/
def fgFetchForm (offline : Bool) (cache : CacheState) (net : NetCall → Option FetchRes)
    (form : FgRecord) : Except Unit FetchRes × List NetCall :=
  fetchData offline cache net form.url { method := some form.method, body := some form.data }

/-- The network call the page's `fetch` issues for one queued form
while online: the record's url, its method (`|| 'GET'`), its `data`
payload serialized. -/
def fgCall (f : FgRecord) : NetCall :=
  { url := f.url, method := jsOrString f.method "GET", body := some (Json.stringify f.data) }

/-- Model of `OfflineManager.syncPendingForms` (scripts.js lines 337-365),
parameterised by the behaviour of `DataManager.fetchData` on each form.
A form with `attempts >= 3` is filtered out of the queue with no fetch;
otherwise the form is fetched and removed when `fetchData` resolves
(whatever the resolved value), or kept with `attempts` incremented when
it throws.  Returns the persisted queue and the fetch calls issued. -/
def syncPendingForms (fetchForm : FgRecord → Except Unit FetchRes × List NetCall) :
    List FgRecord → List FgRecord × List NetCall
  | [] => ([], [])
  | form :: rest =>
    if 3 ≤ form.attempts then
      syncPendingForms fetchForm rest
    else
      match fetchForm form with
      | (.ok _, calls) =>
        let (q, cs) := syncPendingForms fetchForm rest
        (q, calls ++ cs)
      | (.error _, calls) =>
        let (q, cs) := syncPendingForms fetchForm rest
        ({ form with attempts := form.attempts + 1 } :: q, calls ++ cs)

/-- What a window connectivity event handler does to the UI state and
which toast it shows. -/
structure WindowEventResult where
  offline : Bool
  toastMsg : String
  toastLevel : String
deriving Repr

/-- The `window.addEventListener('online', ...)` handler (scripts.js
lines 2284-2288): clears the offline flag, toasts, and invokes the
foreground sync pass (`ServiceWorkerManager.syncPendingForms`, which
delegates to `OfflineManager.syncPendingForms`). -/
def handleWindowOnline (fetchForm : FgRecord → Except Unit FetchRes × List NetCall)
    (queue : List FgRecord) : WindowEventResult × Option (List FgRecord × List NetCall) :=
  ({ offline := false, toastMsg := "Back online. Syncing data...", toastLevel := "success" },
   some (syncPendingForms fetchForm queue))

/-- The `window.addEventListener('offline', ...)` handler (scripts.js
lines 2290-2293): sets the offline flag and toasts; it runs no sync
pass. -/
def handleWindowOffline (_queue : List FgRecord) :
    WindowEventResult × Option (List FgRecord × List NetCall) :=
  ({ offline := true, toastMsg := "You are now offline. Working in offline mode.", toastLevel := "warning" },
   none)

/-! Concrete instances used by witnesses and counterexamples. -/

/-- A network oracle whose every response is ok. -/
def netAllOk : Request → Bool := fun _ => true

/-- A page fetch behaviour that always throws (one call, no result). -/
def fgAlwaysThrows : FgRecord → Except Unit FetchRes × List NetCall :=
  fun f => (.error (), [{ url := f.url, method := f.method, body := none }])

/-- A queued submission that has exhausted its retry budget. -/
def subTerminal : Submission :=
  { id := 1
    url := "/api/addSale"
    method := "POST"
    headers := [("Content-Type", "application/json")]
    body := Json.obj []
    formId := "sale-form"
    timestamp := "2026-01-01T00:00:00.000Z"
    attempts := 3
    csrfToken := "tok" }

/-- A queued submission whose stored headers carry their own
Content-Type. -/
def subPlainText : Submission :=
  { id := 2
    url := "/api/addExpense"
    method := "POST"
    headers := [("Content-Type", "text/plain")]
    body := Json.obj []
    formId := "expense-form"
    timestamp := "2026-01-01T00:00:00.000Z"
    attempts := 0
    csrfToken := "tok" }

/-- A fresh, never-attempted queued submission. -/
def subFresh : Submission :=
  { id := 5
    url := "/api/addCustomer"
    method := "POST"
    headers := [("X-Requested-With", "XMLHttpRequest")]
    body := Json.obj [("name", Json.str "Ada")]
    formId := "customer-form"
    timestamp := "2026-01-02T00:00:00.000Z"
    attempts := 0
    csrfToken := "tok2" }

/-- A sample form submission payload. -/
def fdSample : FormData :=
  { url := "/api/addSale"
    method := "POST"
    data := Json.obj [("amount", Json.num 12)]
    formId := "sale-form" }

/-! Auxiliary lemmas. -/

theorem jsOrString_empty (v : String) : jsOrString v "" = v := by
  unfold jsOrString
  split <;> simp_all

/-- Closed form of the `syncForms` loop: the successful set, the failed
set and the issued requests are each a filter/map of the queue. -/
theorem syncFormsLoop_eq (net : Request → Bool) (queue : List Submission) :
    syncFormsLoop net queue =
      (queue.filter (fun s => decide (s.attempts < 3) && net (mkRequest s)),
       (queue.filter (fun s => !(decide (s.attempts < 3) && net (mkRequest s)))).map
         (fun s => if 3 ≤ s.attempts then s else { s with attempts := s.attempts + 1 }),
       (queue.filter (fun s => decide (s.attempts < 3))).map mkRequest) := by
  induction queue with
  | nil => rfl
  | cons s rest ih =>
    by_cases h3 : 3 ≤ s.attempts
    · have hlt : ¬ s.attempts < 3 := by omega
      simp [syncFormsLoop, h3, ih, hlt]
    · have hlt : s.attempts < 3 := by omega
      by_cases hn : net (mkRequest s)
      · simp [syncFormsLoop, h3, ih, hlt, hn]
      · simp [syncFormsLoop, h3, ih, hlt, hn]

/-- Lemma: `syncForms` issues exactly one request per non-terminal submission,
in queue order, and none for terminal ones. -/
theorem syncForms_requests (net : Request → Bool) (queue : List Submission) :
    (syncForms net queue).requests =
      (queue.filter (fun s => decide (s.attempts < 3))).map mkRequest := by
  cases queue with
  | nil => rfl
  | cons s rest => simp [syncForms, syncFormsLoop_eq]

/-- The store a non-empty `syncForms` pass leaves behind. -/
theorem syncForms_store (net : Request → Bool) (queue : List Submission) (h : queue ≠ []) :
    (syncForms net queue).store =
      updateQueue
        (removeFromQueue queue
          (queue.filter (fun s => decide (s.attempts < 3) && net (mkRequest s))))
        ((queue.filter (fun s => !(decide (s.attempts < 3) && net (mkRequest s)))).map
          (fun s => if 3 ≤ s.attempts then s else { s with attempts := s.attempts + 1 })) := by
  cases queue with
  | nil => exact absurd rfl h
  | cons s rest => simp [syncForms, syncFormsLoop_eq]

/-- Closed form of `syncPendingForms`: the persisted queue is a
`filterMap` of the old one and the calls are those of the non-terminal
records, in order. -/
theorem syncPendingForms_eq (ff : FgRecord → Except Unit FetchRes × List NetCall)
    (queue : List FgRecord) :
    syncPendingForms ff queue =
      (queue.filterMap (fun form =>
         if 3 ≤ form.attempts then none
         else match (ff form).1 with
           | .ok _ => none
           | .error _ => some { form with attempts := form.attempts + 1 }),
       (queue.filter (fun form => decide (form.attempts < 3))).flatMap
         (fun form => (ff form).2)) := by
  induction queue with
  | nil => rfl
  | cons form rest ih =>
    by_cases h3 : 3 ≤ form.attempts
    · have hlt : ¬ form.attempts < 3 := by omega
      simp [syncPendingForms, h3, ih, hlt]
    · have hlt : form.attempts < 3 := by omega
      rcases hff : ff form with ⟨res, calls⟩
      cases res with
      | ok r => simp [syncPendingForms, h3, ih, hlt, hff]
      | error e => simp [syncPendingForms, h3, ih, hlt, hff]

/-- A `put` record is present afterwards. -/
theorem mem_putRecord_self (records : List Submission) (s : Submission) :
    s ∈ putRecord records s := by
  unfold putRecord
  by_cases h : records.any (fun r => r.id == s.id)
  · obtain ⟨r, hr, hid⟩ := List.any_eq_true.mp h
    simp only [h, if_true]
    have : (fun r => if r.id == s.id then s else r) r = s := by simp [hid]
    exact List.mem_map.mpr ⟨r, hr, this⟩
  · simp only [h]
    simp

/-- A record whose key differs from the `put` key survives the `put`. -/
theorem mem_putRecord_of_ne {r s : Submission} {records : List Submission}
    (hr : r ∈ records) (hne : s.id ≠ r.id) : r ∈ putRecord records s := by
  unfold putRecord
  by_cases h : records.any (fun t => t.id == s.id)
  · simp only [h, if_true]
    have hrr : (fun t => if t.id == s.id then s else t) r = r := by
      have : (r.id == s.id) = false := beq_eq_false_iff_ne.mpr (fun hh => hne hh.symm)
      simp [this]
    exact List.mem_map.mpr ⟨r, hr, hrr⟩
  · simp only [h]
    simp [hr]

/-- A record untouched by a batch of `put`s survives `updateQueue`. -/
theorem mem_updateQueue_of_ne {r : Submission} :
    ∀ (subs records : List Submission), r ∈ records → (∀ f ∈ subs, f.id ≠ r.id) →
      r ∈ updateQueue records subs := by
  intro subs
  induction subs with
  | nil => intro records hr _; exact hr
  | cons f rest ih =>
    intro records hr hne
    simp only [updateQueue, List.foldl_cons]
    exact ih (putRecord records f) (mem_putRecord_of_ne hr (hne f (by simp)))
      (fun g hg => hne g (by simp [hg]))

/-- Every record of a batch with pairwise distinct keys is present after
`updateQueue` applies the batch. -/
theorem mem_updateQueue_self {f : Submission} :
    ∀ (subs records : List Submission), f ∈ subs → (subs.map (fun r => r.id)).Nodup →
      f ∈ updateQueue records subs := by
  intro subs
  induction subs with
  | nil => intro records hf _; cases hf
  | cons g rest ih =>
    intro records hf hnd
    simp only [List.map_cons, List.nodup_cons] at hnd
    rcases List.mem_cons.mp hf with hfg | hfr
    · subst hfg
      simp only [updateQueue, List.foldl_cons]
      refine mem_updateQueue_of_ne rest (putRecord records f) (mem_putRecord_self records f) ?_
      intro h hh heq
      exact hnd.1 (heq ▸ List.mem_map_of_mem _ hh)
    · simp only [updateQueue, List.foldl_cons]
      exact ih _ hfr hnd.2

/-- A `put` introduces no key other than its own. -/
theorem putRecord_id_ne {x : Nat} {records : List Submission} {s : Submission}
    (h1 : ∀ r ∈ records, r.id ≠ x) (h2 : s.id ≠ x) :
    ∀ r ∈ putRecord records s, r.id ≠ x := by
  intro r hr
  unfold putRecord at hr
  by_cases h : records.any (fun t => t.id == s.id)
  · simp only [h, if_true] at hr
    obtain ⟨t, ht, hrt⟩ := List.mem_map.mp hr
    by_cases hts : (t.id == s.id) = true
    · simp only [hts, if_true] at hrt
      exact hrt ▸ h2
    · rw [if_neg hts] at hrt
      exact hrt ▸ h1 t ht
  · rw [if_neg h] at hr
    rcases List.mem_append.mp hr with hmem | hmem
    · exact h1 r hmem
    · rcases List.mem_singleton.mp hmem with rfl
      exact h2

/-- Lemma: `updateQueue` introduces no key beyond those of its inputs. -/
theorem updateQueue_id_ne {x : Nat} :
    ∀ (subs records : List Submission), (∀ r ∈ records, r.id ≠ x) → (∀ f ∈ subs, f.id ≠ x) →
      ∀ r ∈ updateQueue records subs, r.id ≠ x := by
  intro subs
  induction subs with
  | nil => intro records h1 _ r hr; exact h1 r hr
  | cons f rest ih =>
    intro records h1 h2
    simp only [updateQueue, List.foldl_cons]
    exact ih _ (putRecord_id_ne h1 (h2 f (by simp))) (fun g hg => h2 g (by simp [hg]))

/-- Re-assigning an existing key in place makes its lookup yield the
new value. -/
theorem getHeader_map_set_self (k v : String) :
    ∀ hs : List (String × String), hs.any (fun p => p.1 == k) = true →
      getHeader (hs.map (fun p => if p.1 == k then (k, v) else p)) k = some v := by
  intro hs
  induction hs with
  | nil => intro h; cases h
  | cons p rest ih =>
    intro h
    by_cases hp : (p.1 == k) = true
    · simp [getHeader, hp]
    · have hany : rest.any (fun q => q.1 == k) = true := by
        simpa [List.any_cons, hp] using h
      have hrec := ih hany
      simp [getHeader, hp] at hrec ⊢
      exact hrec

/-- Appending a binding for an absent key makes its lookup yield the
new value. -/
theorem getHeader_append_of_none (k v : String) :
    ∀ hs : List (String × String), hs.any (fun p => p.1 == k) = false →
      getHeader (hs ++ [(k, v)]) k = some v := by
  intro hs
  induction hs with
  | nil => intro _; simp [getHeader]
  | cons p rest ih =>
    intro h
    simp only [List.any_cons, Bool.or_eq_false_iff] at h
    simp [getHeader, h.1, ih h.2]

theorem getHeader_setHeader_self (hs : List (String × String)) (k v : String) :
    getHeader (setHeader hs k v) k = some v := by
  unfold setHeader
  by_cases h : hs.any (fun p => p.1 == k)
  · simp only [h, if_true]
    exact getHeader_map_set_self k v hs h
  · rw [if_neg h]
    exact getHeader_append_of_none k v hs (Bool.eq_false_iff.mpr h)

theorem getHeader_map_set_of_ne (k' v' k : String) (hne : k' ≠ k) :
    ∀ hs : List (String × String),
      getHeader (hs.map (fun p => if p.1 == k' then (k', v') else p)) k = getHeader hs k := by
  intro hs
  induction hs with
  | nil => rfl
  | cons p rest ih =>
    by_cases hp : (p.1 == k') = true
    · have hp1 : p.1 = k' := by simpa using hp
      have hpk : (p.1 == k) = false := beq_eq_false_iff_ne.mpr (by rw [hp1]; exact hne)
      have hk'k : (k' == k) = false := beq_eq_false_iff_ne.mpr hne
      have hrec := ih
      simp [getHeader, hp, hpk, hk'k] at hrec ⊢
      exact hrec
    · have hrec := ih
      simp [getHeader, hp] at hrec ⊢
      rw [hrec]

theorem getHeader_append_single_of_ne (k' v' k : String) (hne : k' ≠ k) :
    ∀ hs : List (String × String), getHeader (hs ++ [(k', v')]) k = getHeader hs k := by
  intro hs
  induction hs with
  | nil => simp [getHeader, beq_eq_false_iff_ne.mpr hne]
  | cons p rest ih => simp [getHeader, ih]

/-- Assigning a different key leaves a lookup unchanged. -/
theorem getHeader_setHeader_of_ne (hs : List (String × String)) (k' v' k : String)
    (hne : k' ≠ k) : getHeader (setHeader hs k' v') k = getHeader hs k := by
  unfold setHeader
  by_cases h : hs.any (fun p => p.1 == k')
  · simp only [h, if_true]
    exact getHeader_map_set_of_ne k' v' k hne hs
  · rw [if_neg h]
    exact getHeader_append_single_of_ne k' v' k hne hs

/-- Spreading keys that avoid `k` over a base object leaves the lookup
of `k` unchanged. -/
theorem getHeader_foldl_of_not_key (k : String) :
    ∀ (stored base : List (String × String)), (∀ p ∈ stored, p.1 ≠ k) →
      getHeader (stored.foldl (fun acc p => setHeader acc p.1 p.2) base) k = getHeader base k := by
  intro stored
  induction stored with
  | nil => intro base _; rfl
  | cons p rest ih =>
    intro base hnk
    simp only [List.foldl_cons]
    rw [ih (setHeader base p.1 p.2) (fun q hq => hnk q (by simp [hq]))]
    exact getHeader_setHeader_of_ne base p.1 p.2 k (hnk p (by simp))

/-- Spreading an object with pairwise distinct keys over a base object:
each spread binding prevails. -/
theorem getHeader_foldl_mem (k v : String) :
    ∀ (stored base : List (String × String)), (k, v) ∈ stored →
      (stored.map Prod.fst).Nodup →
      getHeader (stored.foldl (fun acc p => setHeader acc p.1 p.2) base) k = some v := by
  intro stored
  induction stored with
  | nil => intro base h _; cases h
  | cons p rest ih =>
    intro base hmem hnd
    simp only [List.map_cons, List.nodup_cons] at hnd
    simp only [List.foldl_cons]
    rcases List.mem_cons.mp hmem with heq | hmem'
    · have hp1 : p.1 = k := by rw [← heq]
      have hbase : getHeader (setHeader base p.1 p.2) k = some v := by
        rw [← heq]
        exact getHeader_setHeader_self base k v
      have hrest : ∀ q ∈ rest, q.1 ≠ k := by
        intro q hq hqk
        exact hnd.1 (by rw [hp1, ← hqk]; exact List.mem_map_of_mem Prod.fst hq)
      rw [getHeader_foldl_of_not_key k rest (setHeader base p.1 p.2) hrest]
      exact hbase
    · exact ih (setHeader base p.1 p.2) hmem' hnd.2

/-- In the merged `syncForms` headers, a stored header prevails over the
fixed entries. -/
theorem getHeader_mergeHeaders_mem (stored : List (String × String)) (csrf k v : String)
    (hmem : (k, v) ∈ stored) (hnd : (stored.map Prod.fst).Nodup) :
    getHeader (mergeHeaders stored csrf) k = some v :=
  getHeader_foldl_mem k v stored _ hmem hnd

/-- In the merged `syncForms` headers, a key the stored headers do not
bind is looked up in the two fixed entries. -/
theorem getHeader_mergeHeaders_of_not_key (stored : List (String × String)) (csrf k : String)
    (hnk : ∀ p ∈ stored, p.1 ≠ k) :
    getHeader (mergeHeaders stored csrf) k =
      getHeader [("Content-Type", "application/json"), ("X-CSRF-Token", jsOrString csrf "")] k :=
  getHeader_foldl_of_not_key k stored _ hnk

/-- The in-memory increment applied to failed submissions keeps keys, so
the failed set inherits distinct keys from the queue. -/
theorem failed_ids_nodup (net : Request → Bool) (queue : List Submission)
    (hnd : (queue.map (fun r => r.id)).Nodup) :
    (((queue.filter (fun t => !(decide (t.attempts < 3) && net (mkRequest t)))).map
        (fun t => if 3 ≤ t.attempts then t else { t with attempts := t.attempts + 1 })).map
      (fun r => r.id)).Nodup := by
  rw [List.map_map]
  have hfun : ((fun r : Submission => r.id) ∘
      (fun t : Submission => if 3 ≤ t.attempts then t else { t with attempts := t.attempts + 1 }))
      = fun t : Submission => t.id := by
    funext t
    by_cases h : 3 ≤ t.attempts <;> simp [h]
  rw [hfun]
  exact hnd.sublist ((List.filter_sublist queue).map _)

/-- A submission already at the attempt bound survives a `syncForms`
pass untouched: it lands in the failed set and `updateQueue` re-`put`s
it. -/
theorem terminal_mem_store (net : Request → Bool) (queue : List Submission) (s : Submission)
    (hnd : (queue.map (fun r => r.id)).Nodup) (hs : s ∈ queue) (h3 : 3 ≤ s.attempts) :
    s ∈ (syncForms net queue).store := by
  have hq : queue ≠ [] := by intro h; subst h; cases hs
  rw [syncForms_store net queue hq]
  have hps : s ∈ queue.filter (fun t => !(decide (t.attempts < 3) && net (mkRequest t))) := by
    refine List.mem_filter.mpr ⟨hs, ?_⟩
    have hdec : decide (s.attempts < 3) = false := by simp; omega
    simp [hdec]
  have hsf : s ∈ (queue.filter (fun t => !(decide (t.attempts < 3) && net (mkRequest t)))).map
      (fun t => if 3 ≤ t.attempts then t else { t with attempts := t.attempts + 1 }) :=
    List.mem_map.mpr ⟨s, hps, if_pos h3⟩
  exact mem_updateQueue_self _ _ hsf (failed_ids_nodup net queue hnd)

/-! Claims. -/

/-- C1, counterexample to the claim as stated: a submission with
`attempts = 3` at the start of a service-worker sync pass gets no
network call, but it is NOT removed from the queue store — the pass
re-`put`s it unchanged. -/
theorem C1_cex :
    (syncForms netAllOk [subTerminal]).requests = [] ∧
    (syncForms netAllOk [subTerminal]).store.map (fun r => (r.id, r.attempts)) = [(1, 3)] :=
  ⟨rfl, rfl⟩

/-- C1 (amended): a submission with `attempts ≥ 3` at the start of a
sync pass never has a network call issued for it (requests are exactly
one per non-terminal submission, in both passes); the foreground pass
drops it from its queue, while the service-worker pass keeps it in the
store unchanged — no pass ever removes it there. -/
theorem C1_thm (net : Request → Bool) (queue : List Submission)
    (ff : FgRecord → Except Unit FetchRes × List NetCall) (fgQueue : List FgRecord)
    (s : Submission) (hnd : (queue.map (fun r => r.id)).Nodup) (hs : s ∈ queue)
    (h3 : 3 ≤ s.attempts) :
    (syncForms net queue).requests
        = (queue.filter (fun t => decide (t.attempts < 3))).map mkRequest ∧
    (syncPendingForms ff fgQueue).2
        = (fgQueue.filter (fun f => decide (f.attempts < 3))).flatMap (fun f => (ff f).2) ∧
    (syncPendingForms ff fgQueue).1
        = fgQueue.filterMap (fun form =>
            if 3 ≤ form.attempts then none
            else match (ff form).1 with
              | .ok _ => none
              | .error _ => some { form with attempts := form.attempts + 1 }) ∧
    s ∈ (syncForms net queue).store := by
  refine ⟨syncForms_requests net queue, ?_, ?_,
    terminal_mem_store net queue s hnd hs h3⟩
  · simp [syncPendingForms_eq]
  · simp [syncPendingForms_eq]

/-- C1, witness: the terminal submission is still in the store after
the pass. -/
theorem C1_witness : subTerminal ∈ (syncForms netAllOk [subTerminal]).store :=
  (C1_thm netAllOk [subTerminal] fgAlwaysThrows [] subTerminal
    (by simp) (by simp) (by decide)).2.2.2

/-- C2, counterexample to the claim as stated: on an empty queue the
pass makes no network call but broadcasts nothing — not the claimed
summary with zero counts. -/
theorem C2_cex :
    (syncForms netAllOk []).requests = [] ∧
    (syncForms netAllOk []).broadcast ≠ some (0, 0) :=
  ⟨rfl, by decide⟩

/-- C2 (amended): a sync pass on an empty queue performs zero network
calls, leaves the store empty and returns before broadcasting any
summary event; the foreground pass likewise does nothing. -/
theorem C2_thm (net : Request → Bool)
    (ff : FgRecord → Except Unit FetchRes × List NetCall) :
    (syncForms net []).requests = [] ∧
    (syncForms net []).broadcast = none ∧
    (syncForms net []).store = [] ∧
    syncPendingForms ff [] = ([], []) :=
  ⟨rfl, rfl, rfl, rfl⟩

/-- C6, counterexample to the claim as stated: with no active
service-worker controller, `queueForm` posts no message at all, and the
`queue-form` message handler never triggers a sync in any case. -/
theorem C6_cex :
    (queueForm "2026-01-01T00:00:00.000Z" "tok" ⟨true, false⟩ [] fdSample).2 = none ∧
    (handleQueueFormMessage "2026-01-01T00:00:01.000Z" ⟨[], 1⟩
        (queueFormMessage "tok" fdSample)).syncTriggered = false :=
  ⟨rfl, rfl⟩

/-- C6 (amended): `queueForm` notifies the service worker only when a
controller is active; the notification's handler persists the work in
the IndexedDB queue and replies, but registers no background sync and
triggers no sync pass, and the page registers no background sync tag at
all. -/
theorem C6_thm (now csrf nowSW : String) (env : ClientEnv) (queue : List FgRecord)
    (fd : FormData) (st : SWStore) :
    (queueForm now csrf env queue fd).2 =
      (if env.hasServiceWorker && env.hasController
        then some (queueFormMessage csrf fd) else none) ∧
    (∃ r, (handleQueueFormMessage nowSW st (queueFormMessage csrf fd)).store.records
        = st.records ++ [r]) ∧
    (handleQueueFormMessage nowSW st (queueFormMessage csrf fd)).reply = true ∧
    (handleQueueFormMessage nowSW st (queueFormMessage csrf fd)).syncTriggered = false ∧
    backgroundSyncRegistrations = [] :=
  ⟨rfl, ⟨_, rfl⟩, rfl, rfl, rfl⟩

/-- C7: the `online` handler clears the offline flag, toasts the
reconnect message and invokes the foreground sync pass; the `offline`
handler sets the flag, toasts the disconnect message and runs no sync
pass. -/
theorem C7_thm (ff : FgRecord → Except Unit FetchRes × List NetCall)
    (queue : List FgRecord) :
    (handleWindowOnline ff queue).1.offline = false ∧
    (handleWindowOnline ff queue).1.toastMsg = "Back online. Syncing data..." ∧
    (handleWindowOnline ff queue).2 = some (syncPendingForms ff queue) ∧
    (handleWindowOffline queue).1.offline = true ∧
    (handleWindowOffline queue).1.toastMsg = "You are now offline. Working in offline mode." ∧
    (handleWindowOffline queue).2 = none :=
  ⟨rfl, rfl, rfl, rfl, rfl, rfl⟩

/-- C3, counterexample to the claim as stated: after a pass over a
queue holding one terminal submission, that submission's key is still
present and its `attempts` is unchanged rather than incremented. -/
theorem C3_cex :
    ¬ ((∀ r ∈ (syncForms netAllOk [subTerminal]).store, r.id ≠ subTerminal.id) ∨
       (∃ r ∈ (syncForms netAllOk [subTerminal]).store,
          r.id = subTerminal.id ∧ r.attempts = subTerminal.attempts + 1)) := by
  decide

/-- C3 (amended): after a service-worker sync pass, each pre-pass
submission is, by key, absent from the store, or present with
`attempts` exactly one greater, or — when its `attempts` were already
at the bound — present unchanged. -/
theorem C3_thm (net : Request → Bool) (queue : List Submission) (s : Submission)
    (hnd : (queue.map (fun r => r.id)).Nodup) (hs : s ∈ queue) :
    (∀ r ∈ (syncForms net queue).store, r.id ≠ s.id) ∨
    (∃ r ∈ (syncForms net queue).store, r.id = s.id ∧ r.attempts = s.attempts + 1) ∨
    (3 ≤ s.attempts ∧ s ∈ (syncForms net queue).store) := by
  have hq : queue ≠ [] := by intro h; subst h; cases hs
  have hbid : ∀ t : Submission,
      (if 3 ≤ t.attempts then t else { t with attempts := t.attempts + 1 }).id = t.id := by
    intro t
    by_cases h : 3 ≤ t.attempts <;> simp [h]
  by_cases h3 : 3 ≤ s.attempts
  · exact Or.inr (Or.inr ⟨h3, terminal_mem_store net queue s hnd hs h3⟩)
  · have hlt : s.attempts < 3 := by omega
    by_cases hnet : net (mkRequest s)
    · refine Or.inl ?_
      intro r hr
      rw [syncForms_store net queue hq] at hr
      refine updateQueue_id_ne _ _ ?_ ?_ r hr
      · intro t ht hts
        have hmem := List.mem_filter.mp ht
        have hsucc : s ∈ queue.filter (fun u => decide (u.attempts < 3) && net (mkRequest u)) :=
          List.mem_filter.mpr ⟨hs, by simp [hlt, hnet]⟩
        have hany : (queue.filter (fun u => decide (u.attempts < 3) && net (mkRequest u))).any
            (fun u => u.id == t.id) = true :=
          List.any_eq_true.mpr ⟨s, hsucc, by simp [hts]⟩
        rw [hany] at hmem
        simp at hmem
      · intro f hf hfs
        obtain ⟨t, ht, hft⟩ := List.mem_map.mp hf
        have htq := (List.mem_filter.mp ht).1
        have htp := (List.mem_filter.mp ht).2
        have htid : t.id = s.id := by
          rw [← hbid t, hft]
          exact hfs
        have hts : t = s := List.inj_on_of_nodup_map hnd htq hs htid
        subst hts
        simp [hlt, hnet] at htp
    · refine Or.inr (Or.inl ?_)
      have hps : s ∈ queue.filter (fun u => !(decide (u.attempts < 3) && net (mkRequest u))) :=
        List.mem_filter.mpr ⟨hs, by simp [hnet]⟩
      have hmemf : { s with attempts := s.attempts + 1 } ∈
          (queue.filter (fun u => !(decide (u.attempts < 3) && net (mkRequest u)))).map
            (fun t => if 3 ≤ t.attempts then t else { t with attempts := t.attempts + 1 }) :=
        List.mem_map.mpr ⟨s, hps, if_neg h3⟩
      have hstore : { s with attempts := s.attempts + 1 } ∈ (syncForms net queue).store := by
        rw [syncForms_store net queue hq]
        exact mem_updateQueue_self _ _ hmemf (failed_ids_nodup net queue hnd)
      exact ⟨_, hstore, rfl, rfl⟩

/-- C3, witness: a fresh submission against an all-ok network. -/
theorem C3_witness :
    (∀ r ∈ (syncForms netAllOk [subFresh]).store, r.id ≠ subFresh.id) ∨
    (∃ r ∈ (syncForms netAllOk [subFresh]).store,
        r.id = subFresh.id ∧ r.attempts = subFresh.attempts + 1) ∨
    (3 ≤ subFresh.attempts ∧ subFresh ∈ (syncForms netAllOk [subFresh]).store) :=
  C3_thm netAllOk [subFresh] subFresh (by simp) (by simp)

/-- C4, counterexample to the claim as stated: a stored Content-Type
header overrides the fixed `application/json` entry in the replay
request, because the stored headers are spread last. -/
theorem C4_cex :
    (syncForms netAllOk [subPlainText]).requests = [mkRequest subPlainText] ∧
    getHeader (mkRequest subPlainText).headers "Content-Type" = some "text/plain" ∧
    getHeader (mkRequest subPlainText).headers "Content-Type" ≠ some "application/json" :=
  ⟨rfl, by decide, by decide⟩

/-- C4 (amended): each non-terminal submission is replayed by a request
to `submission.url` with `submission.method` and body the JSON
serialization of `submission.body`; the request headers are the fixed
`Content-Type: application/json` and `X-CSRF-Token: csrfToken` entries
overridden by the submission's stored headers — the stored headers
prevail on any key they bind, the fixed entries apply only to keys the
stored headers leave unbound. -/
theorem C4_thm (net : Request → Bool) (queue : List Submission) (s : Submission)
    (k v k' : String)
    (hs : s ∈ queue) (hlt : s.attempts < 3) (hnd : (s.headers.map Prod.fst).Nodup)
    (hkv : (k, v) ∈ s.headers) (hk' : ∀ p ∈ s.headers, p.1 ≠ k') :
    mkRequest s ∈ (syncForms net queue).requests ∧
    (mkRequest s).url = s.url ∧
    (mkRequest s).method = s.method ∧
    (mkRequest s).body = Json.stringify s.body ∧
    getHeader (mkRequest s).headers k = some v ∧
    getHeader (mkRequest s).headers k' =
      getHeader [("Content-Type", "application/json"),
        ("X-CSRF-Token", jsOrString s.csrfToken "")] k' := by
  refine ⟨?_, rfl, rfl, rfl, ?_, ?_⟩
  · rw [syncForms_requests]
    exact List.mem_map_of_mem mkRequest (List.mem_filter.mpr ⟨hs, by simp [hlt]⟩)
  · exact getHeader_mergeHeaders_mem s.headers s.csrfToken k v hkv hnd
  · exact getHeader_mergeHeaders_of_not_key s.headers s.csrfToken k' hk'

/-- C4, witness: the stored `text/plain` content type prevails on the
concrete submission. -/
theorem C4_witness :
    getHeader (mkRequest subPlainText).headers "Content-Type" = some "text/plain" :=
  (C4_thm netAllOk [subPlainText] subPlainText "Content-Type" "text/plain" "X-CSRF-Token"
    (by simp) (by decide) (by decide) (by decide) (by decide)).2.2.2.2.1

/-- C5: `queueForm` stamps the localforage record with
`timestamp = now`, `attempts = 0` and the current CSRF token and
appends it; the forwarded message makes the service worker store a
record with `attempts = 0`, its own current timestamp, the same token,
and the fresh auto-increment id, distinct from every id already in the
store; `getQueue` right after returns the old records plus the new
one. -/
theorem C5_thm (now csrf nowSW : String) (queue : List FgRecord) (fd : FormData)
    (st : SWStore) (hinv : ∀ r ∈ st.records, r.id < st.nextId) :
    (queueForm now csrf ⟨true, true⟩ queue fd).2 = some (queueFormMessage csrf fd) ∧
    (queueForm now csrf ⟨true, true⟩ queue fd).1 = queue ++ [queueFormRecord now csrf fd] ∧
    (queueFormRecord now csrf fd).timestamp = now ∧
    (queueFormRecord now csrf fd).attempts = 0 ∧
    (queueFormRecord now csrf fd).csrfToken = csrf ∧
    ∃ r, getQueue (handleQueueFormMessage nowSW st (queueFormMessage csrf fd)).store
        = getQueue st ++ [r] ∧
      r.id = st.nextId ∧ r.attempts = 0 ∧ r.timestamp = nowSW ∧ r.csrfToken = csrf ∧
      ∀ r0 ∈ getQueue st, r0.id ≠ st.nextId := by
  refine ⟨rfl, rfl, rfl, rfl, rfl, ?_⟩
  refine ⟨_, rfl, rfl, rfl, rfl, ?_, ?_⟩
  · show ((some ((some csrf).getD "")).map (fun c => jsOrString c "")).getD "" = csrf
    simp [jsOrString_empty]
  · intro r0 h0 heq
    have := hinv r0 h0
    omega

/-- C5, witness: enqueue into the empty store. -/
theorem C5_witness :
    ∃ r, getQueue (handleQueueFormMessage "2026-01-01T00:00:01.000Z" ⟨[], 1⟩
        (queueFormMessage "tok" fdSample)).store
      = getQueue ⟨[], 1⟩ ++ [r] ∧
    r.id = (⟨[], 1⟩ : SWStore).nextId ∧ r.attempts = 0 ∧
    r.timestamp = "2026-01-01T00:00:01.000Z" ∧ r.csrfToken = "tok" ∧
    ∀ r0 ∈ getQueue ⟨[], 1⟩, r0.id ≠ (⟨[], 1⟩ : SWStore).nextId :=
  (C5_thm "2026-01-01T00:00:00.000Z" "tok" "2026-01-01T00:00:01.000Z" [] fdSample
    ⟨[], 1⟩ (by simp)).2.2.2.2.2

/-- The foreground replay of one non-terminal record while online makes
exactly one network call, with the record's url, its method (defaulted
as `|| 'GET'`), and its `data` payload serialized. -/
theorem fgFetchForm_calls (cache : CacheState) (net : NetCall → Option FetchRes)
    (f : FgRecord) :
    (fgFetchForm false cache net f).2 = [fgCall f] := by
  unfold fgFetchForm fetchData
  rcases hn : net (fgCall f) with _ | res <;>
    simp only [fgCall] at hn <;> simp [hn, fgCall]

/-- C8: the offline `submitForm` path hands `queueForm` a payload under
the key `data`; the forwarded `queue-form` message therefore carries no
`body`, so the stored IndexedDB record has `body = \x7b\x7d` and its replay
request carries the JSON body consisting solely of the two braces, not
the original form payload. -/
theorem C8_thm (csrf nowSW : String) (st : SWStore) (fd : FormData) :
    (queueFormMessage csrf fd).data = some fd.data ∧
    (queueFormMessage csrf fd).body = none ∧
    ∃ r, (handleQueueFormMessage nowSW st (queueFormMessage csrf fd)).store.records
        = st.records ++ [r] ∧
      r.body = Json.obj [] ∧ r.attempts = 0 ∧
      (mkRequest r).body = "\x7b\x7d" ∧
      ∀ net, mkRequest r ∈ (syncForms net
        (handleQueueFormMessage nowSW st (queueFormMessage csrf fd)).store.records).requests := by
  refine ⟨rfl, rfl, _, rfl, rfl, rfl, rfl, ?_⟩
  intro net
  rw [syncForms_requests]
  refine List.mem_map_of_mem mkRequest (List.mem_filter.mpr ⟨?_, ?_⟩)
  · exact List.mem_append_right _ (by simp)
  · rfl

/-- C9: with an active service-worker controller, one `queueForm` call
persists the submission twice — appended to the localforage `formQueue`
and, via the `queue-form` message, added to the IndexedDB `formQueue` —
and each sync pass then issues its own replay for its copy: the
service-worker pass a request for the stored record, the foreground
pass a fetch carrying the original `data` payload. -/
theorem C9_thm (now csrf nowSW : String) (queue : List FgRecord) (fd : FormData)
    (st : SWStore) (cache : CacheState) (netFG : NetCall → Option FetchRes)
    (netSW : Request → Bool) :
    (queueForm now csrf ⟨true, true⟩ queue fd).1 = queue ++ [queueFormRecord now csrf fd] ∧
    (queueForm now csrf ⟨true, true⟩ queue fd).2 = some (queueFormMessage csrf fd) ∧
    (∃ r, (handleQueueFormMessage nowSW st (queueFormMessage csrf fd)).store.records
        = st.records ++ [r] ∧ r.formId = fd.formId ∧ r.url = fd.url ∧
      mkRequest r ∈ (syncForms netSW
        ((handleQueueFormMessage nowSW st (queueFormMessage csrf fd)).store.records)).requests) ∧
    fgCall (queueFormRecord now csrf fd) ∈
      (syncPendingForms (fgFetchForm false cache netFG)
        ((queueForm now csrf ⟨true, true⟩ queue fd).1)).2 := by
  refine ⟨rfl, rfl, ⟨_, rfl, rfl, rfl, ?_⟩, ?_⟩
  · rw [syncForms_requests]
    refine List.mem_map_of_mem mkRequest (List.mem_filter.mpr ⟨?_, ?_⟩)
    · exact List.mem_append_right _ (by simp)
    · rfl
  · have hq : (queueForm now csrf ⟨true, true⟩ queue fd).1
        = queue ++ [queueFormRecord now csrf fd] := rfl
    rw [hq, syncPendingForms_eq]
    refine List.mem_flatMap.mpr ⟨queueFormRecord now csrf fd, ?_, ?_⟩
    · refine List.mem_filter.mpr ⟨List.mem_append_right _ (by simp), ?_⟩
      rfl
    · rw [fgFetchForm_calls]
      simp

/-- C10: the foreground pass deletes a queued form whenever `fetchData`
resolves, whatever the resolved value (`success` flag included); while
the offline flag is set `fetchData` performs no network call and always
resolves with the `handleOfflineData` fallback, so an offline pass
empties the whole queue with zero network calls. -/
theorem C10_thm (ff : FgRecord → Except Unit FetchRes × List NetCall)
    (queue queue2 : List FgRecord) (cache : CacheState) (net : NetCall → Option FetchRes)
    (url : String) (options : FetchOptions) :
    (syncPendingForms ff queue).1 = queue.filterMap (fun form =>
        if 3 ≤ form.attempts then none
        else match (ff form).1 with
          | .ok _ => none
          | .error _ => some { form with attempts := form.attempts + 1 }) ∧
    fetchData true cache net url options = (.ok (handleOfflineData cache url), []) ∧
    syncPendingForms (fgFetchForm true cache net) queue2 = ([], []) := by
  refine ⟨?_, rfl, ?_⟩
  · simp [syncPendingForms_eq]
  · induction queue2 with
    | nil => rfl
    | cons form rest ih =>
      by_cases h3 : 3 ≤ form.attempts
      · simp [syncPendingForms, h3, ih]
      · simp [syncPendingForms, h3, ih, fgFetchForm, fetchData]
